import Mathlib

/-!
Shallow embedding of the backup engine (source: iniciativas-backup/initiative-logic).

The embedded components:
* the Incremental Window Aggregator
  (lambdas/incremental_backup/lambda_function.py),
* the Sweep Planner (lambdas/filter_inventory/lambda_function.py),
* the Batch-Copy Launcher (lambdas/launch_batch_job/lambda_function.py).

Python strings are modelled as Lean `String`; the Python string operations
used by the code (startswith, endswith, substring membership, rstrip,
lower) are defined below on the character lists so that their behaviour
matches the Python semantics (for example, `s.endswith("")` is true).
Object-store effects (head/put/copy/create_job and their outcomes) are
passed in explicitly as oracle arguments, and the calls a handler makes
are collected in traces, so the handlers stay pure and executable.
-/

namespace Backup

/-! ## Python string primitives -/

/-- Python `needle in hay` on character lists: true iff `needle` occurs as a
contiguous substring (the empty list occurs in everything). -/
def listInfixB (needle : List Char) : List Char → Bool
  | [] => needle.isPrefixOf []
  | c :: rest => needle.isPrefixOf (c :: rest) || listInfixB needle rest

/-- Python `s.startswith(p)`. -/
def pyStartswith (s p : String) : Bool := p.data.isPrefixOf s.data

/-- Python `s.endswith(p)`. -/
def pyEndswith (s p : String) : Bool := p.data.isSuffixOf s.data

/-- Python `sub in s`. -/
def pyContains (s sub : String) : Bool := listInfixB sub.data s.data

/-- Python `s.lower()` (adequate for the ASCII strings the code compares). -/
def pyLower (s : String) : String := ⟨s.data.map Char.toLower⟩

/-- Python `p.rstrip('/')`: drop every trailing slash character. -/
def rstripSlash (p : String) : String :=
  ⟨(p.data.reverse.dropWhile (· == '/')).reverse⟩

theorem listInfixB_iff (needle hay : List Char) :
    listInfixB needle hay = true ↔ needle <:+: hay := by
  induction hay with
  | nil =>
      simp [listInfixB, List.isPrefixOf_iff_prefix, List.infix_nil, List.prefix_nil]
  | cons c rest ih =>
      simp [listInfixB, List.isPrefixOf_iff_prefix, ih, List.infix_cons_iff]

theorem pyStartswith_iff (s p : String) :
    pyStartswith s p = true ↔ p.data <+: s.data := by
  simp [pyStartswith, List.isPrefixOf_iff_prefix]

theorem pyContains_iff (s sub : String) :
    pyContains s sub = true ↔ sub.data <:+: s.data := by
  simp [pyContains, listInfixB_iff]

theorem rstripSlash_prefix_of_self (p : String) :
    (rstripSlash p).data <+: p.data := by
  have h : p.data.reverse.dropWhile (· == '/') <:+ p.data.reverse :=
    List.dropWhile_suffix _
  have h2 := List.reverse_prefix.mpr h
  simpa [rstripSlash] using h2

/-- A string with no trailing slash is unchanged by `rstrip('/')`. -/
theorem rstripSlash_eq_self (p : String) (h : pyEndswith p "/" = false) :
    rstripSlash p = p := by
  apply String.ext
  show (p.data.reverse.dropWhile (· == '/')).reverse = p.data
  have hd : p.data.reverse.dropWhile (· == '/') = p.data.reverse := by
    cases hrev : p.data.reverse with
    | nil => simp
    | cons c rest =>
        have hc : (c == '/') = false := by
          by_contra hcon
          have hc' : c = '/' := by
            cases hb : c == '/' with
            | false => exact absurd hb hcon
            | true => exact eq_of_beq hb
          have hsuf : ['/'] <:+ p.data := by
            refine List.reverse_prefix.mp ?_
            rw [hrev]
            subst hc'
            exact ⟨rest, by simp⟩
          have : pyEndswith p "/" = true := by
            have : (("/" : String)).data.isSuffixOf p.data = true :=
              List.isSuffixOf_iff_suffix.mpr hsuf
            simpa [pyEndswith] using this
          rw [this] at h
          exact Bool.true_eq_false.mp h
        simp [List.dropWhile, hc]
  rw [hd, List.reverse_reverse]

/-! ## Datetimes

Python `datetime` values are modelled by their seven components; the code
only ever rewrites the time-of-day fields (`datetime.replace`), formats
fields (`strftime`), and compares datetimes componentwise, so no calendar
arithmetic is needed. -/

structure PyDateTime where
  year : Nat
  month : Nat
  day : Nat
  hour : Nat
  minute : Nat
  second : Nat
  microsecond : Nat
deriving DecidableEq, Repr

/-- Python datetime comparison `a <= b` (lexicographic on the components,
which matches Python for valid datetimes in one timezone). -/
def pyDTle (a b : PyDateTime) : Bool :=
  if a.year ≠ b.year then a.year ≤ b.year
  else if a.month ≠ b.month then a.month ≤ b.month
  else if a.day ≠ b.day then a.day ≤ b.day
  else if a.hour ≠ b.hour then a.hour ≤ b.hour
  else if a.minute ≠ b.minute then a.minute ≤ b.minute
  else if a.second ≠ b.second then a.second ≤ b.second
  else a.microsecond ≤ b.microsecond

/-- Zero-padded two-digit decimal rendering (strftime `%m`, `%d`, `%H`, `%M`). -/
def pad2 (n : Nat) : String := if n < 10 then "0" ++ toString n else toString n

/-- Zero-padded four-digit decimal rendering (strftime `%Y`). -/
def pad4 (n : Nat) : String :=
  if n < 10 then "000" ++ toString n
  else if n < 100 then "00" ++ toString n
  else if n < 1000 then "0" ++ toString n
  else toString n

/-- strftime `"%Y%m%dT%H%MZ"`: the canonical window label. -/
def windowLabelOf (dt : PyDateTime) : String :=
  pad4 dt.year ++ pad2 dt.month ++ pad2 dt.day ++ "T" ++ pad2 dt.hour ++
    pad2 dt.minute ++ "Z"

/-- strftime `"%Y%m%d-%H%M%S"`: the run id format. -/
def runIdOf (dt : PyDateTime) : String :=
  pad4 dt.year ++ pad2 dt.month ++ pad2 dt.day ++ "-" ++ pad2 dt.hour ++
    pad2 dt.minute ++ pad2 dt.second

/-- Source incremental_backup/lambda_function.py, compute_window_start:
floor the hour to a multiple of the tier frequency and zero the
sub-hour fields, leaving the date untouched. -/
def computeWindowStart (eventTime : PyDateTime) (freqHours : Nat) : PyDateTime :=
  { eventTime with
      hour := eventTime.hour / freqHours * freqHours
      minute := 0
      second := 0
      microsecond := 0 }

/-- C9: for every event time and window length h greater than 0, the computed
window start has an hour that is a multiple of h, zero minute, second and
microsecond, and the same date as the event time. -/
theorem computeWindowStart_quantizes (eventTime : PyDateTime) (h : Nat)
    (hpos : 0 < h) :
    h ∣ (computeWindowStart eventTime h).hour ∧
    (computeWindowStart eventTime h).minute = 0 ∧
    (computeWindowStart eventTime h).second = 0 ∧
    (computeWindowStart eventTime h).microsecond = 0 ∧
    (computeWindowStart eventTime h).year = eventTime.year ∧
    (computeWindowStart eventTime h).month = eventTime.month ∧
    (computeWindowStart eventTime h).day = eventTime.day :=
  ⟨Nat.dvd_mul_left h (eventTime.hour / h), rfl, rfl, rfl, rfl, rfl, rfl⟩

/-- Witness for C9 at the concrete event time 2025-10-20T13:15:00Z with a
6-hour window. -/
theorem computeWindowStart_quantizes_witness :
    0 < 6 ∧
    (6 ∣ (computeWindowStart ⟨2025, 10, 20, 13, 15, 0, 0⟩ 6).hour ∧
      (computeWindowStart ⟨2025, 10, 20, 13, 15, 0, 0⟩ 6).minute = 0 ∧
      (computeWindowStart ⟨2025, 10, 20, 13, 15, 0, 0⟩ 6).second = 0 ∧
      (computeWindowStart ⟨2025, 10, 20, 13, 15, 0, 0⟩ 6).microsecond = 0 ∧
      (computeWindowStart ⟨2025, 10, 20, 13, 15, 0, 0⟩ 6).year = 2025 ∧
      (computeWindowStart ⟨2025, 10, 20, 13, 15, 0, 0⟩ 6).month = 10 ∧
      (computeWindowStart ⟨2025, 10, 20, 13, 15, 0, 0⟩ 6).day = 20) :=
  ⟨by decide, computeWindowStart_quantizes ⟨2025, 10, 20, 13, 15, 0, 0⟩ 6 (by decide)⟩

/-! ## The Aggregator object filter

Source: incremental_backup/lambda_function.py, within_allowed_prefixes.
The environment bindings it consults (EXCLUDE_KEY_PREFIXES,
EXCLUDE_KEY_SUFFIXES, ALLOWED_PREFIXES, BACKUP_FREQUENCY_HOURS_TIER,
DISABLE_WINDOW_CHECKPOINT) and the tag lookup get_bucket_criticality are
modelled as an explicit environment record. -/

structure AggEnv where
  exKeyPref : List String
  exKeySuf : List String
  allowedPref : String → List String
  freqHoursEnv : String → Option Int
  criticalityOf : String → String
  disableWindowCheckpoint : Bool

/-- Source get_frequency_hours: the environment yields none for an absent,
empty, zero or unparsable value; a parsed value that is not positive is
also rejected. -/
def getFrequencyHours (env : AggEnv) (criticality : String) : Option Nat :=
  match env.freqHoursEnv criticality with
  | none => none
  | some f => if f ≤ 0 then none else some f.toNat

/-- The exclude-prefix loop of within_allowed_prefixes: a nonempty
configured value excludes a key that starts with its slash-stripped form
(with or without a following slash) or contains it as a slash-delimited
path segment. -/
def excludedByPref (env : AggEnv) (objectKey : String) : Bool :=
  env.exKeyPref.any fun p =>
    p != "" &&
      (pyStartswith objectKey (rstripSlash p ++ "/") ||
        pyStartswith objectKey (rstripSlash p) ||
        pyContains objectKey ("/" ++ rstripSlash p ++ "/"))

/-- Source within_allowed_prefixes: reject folder markers, then excluded
keys by configured exclude values and suffixes, then apply the per-tier
allowed inclusion list (empty list means everything is allowed). -/
def withinAllowedPrefixes (env : AggEnv) (criticality objectKey : String) : Bool :=
  if pyEndswith objectKey "/" then false
  else if excludedByPref env objectKey then false
  else if env.exKeySuf.any (fun sfx => pyEndswith objectKey sfx) then false
  else
    match env.allowedPref criticality with
    | [] => true
    | ps => ps.any fun p => pyStartswith objectKey p

/-- Decomposition of `rstrip('/')`: the original string is the stripped
string followed by some run of slash characters. -/
theorem rstripSlash_spec (p : String) :
    ∃ t, p.data = (rstripSlash p).data ++ t ∧ ∀ c ∈ t, c = '/' := by
  refine ⟨(p.data.reverse.takeWhile (· == '/')).reverse, ?_, ?_⟩
  · have h : p.data.reverse.takeWhile (· == '/') ++
        p.data.reverse.dropWhile (· == '/') = p.data.reverse :=
      List.takeWhile_append_dropWhile _ _
    have h2 : p.data.reverse.reverse =
        (p.data.reverse.takeWhile (· == '/') ++
          p.data.reverse.dropWhile (· == '/')).reverse := by rw [h]
    rw [List.reverse_reverse, List.reverse_append] at h2
    exact h2
  · intro c hc
    have hmem : c ∈ p.data.reverse.takeWhile (· == '/') :=
      List.mem_reverse.mp hc
    have := List.mem_takeWhile_imp hmem
    exact eq_of_beq this

/-- Exclusion soundness: a key equal to a nonempty configured exclude value
p, or starting with p followed by a slash, or containing p as a
slash-delimited segment, never passes the filter. -/
theorem withinAllowedPrefixes_excludes (env : AggEnv) (criticality objectKey p : String)
    (hp : p ∈ env.exKeyPref) (hne : p ≠ "")
    (hform : objectKey = p ∨ pyStartswith objectKey (p ++ "/") = true ∨
      pyContains objectKey ("/" ++ p ++ "/") = true) :
    withinAllowedPrefixes env criticality objectKey = false := by
  cases hEnd : pyEndswith objectKey "/" with
  | true => simp [withinAllowedPrefixes, hEnd]
  | false =>
    have hExcl : excludedByPref env objectKey = true := by
      unfold excludedByPref
      rw [List.any_eq_true]
      refine ⟨p, hp, ?_⟩
      rw [Bool.and_eq_true]
      refine ⟨bne_iff_ne.mpr hne, ?_⟩
      rcases hform with hkey | hstart | hseg
      · -- key equals p, which then has no trailing slash, so rstrip keeps it
        have hq : rstripSlash p = p := by
          apply rstripSlash_eq_self
          rw [← hkey]; exact hEnd
        have : pyStartswith objectKey (rstripSlash p) = true := by
          rw [hq, hkey, pyStartswith_iff]
        simp [this]
      · -- key starts with p ++ "/", and rstrip p is a prefix of p
        have hq : (rstripSlash p).data <+: objectKey.data := by
          have h1 : (rstripSlash p).data <+: p.data := rstripSlash_prefix_of_self p
          have h2 : p.data <+: (p ++ "/").data := by
            rw [String.data_append]; exact List.prefix_append _ _
          exact h1.trans (h2.trans (pyStartswith_iff _ _ |>.mp hstart))
        have : pyStartswith objectKey (rstripSlash p) = true :=
          (pyStartswith_iff _ _).mpr hq
        simp [this]
      · -- key contains "/p/", and "/rstrip(p)/" is a prefix of "/p/"
        obtain ⟨t, hpt, hslash⟩ := rstripSlash_spec p
        have hpref : ("/" ++ rstripSlash p ++ "/").data <+: ("/" ++ p ++ "/").data := by
          rw [String.data_append, String.data_append, String.data_append,
            String.data_append, hpt]
          simp only [List.append_assoc]
          rw [List.prefix_append_right_inj, List.prefix_append_right_inj]
          cases ht : t with
          | nil => simp
          | cons c t2 =>
            have hc : c = '/' := hslash c (by rw [ht]; exact List.mem_cons_self c t2)
            refine ⟨t2 ++ ("/" : String).data, ?_⟩
            rw [hc]
            simp
        have hinf : ("/" ++ rstripSlash p ++ "/").data <:+: objectKey.data :=
          hpref.isInfix.trans (pyContains_iff _ _ |>.mp hseg)
        have : pyContains objectKey ("/" ++ rstripSlash p ++ "/") = true :=
          (pyContains_iff _ _).mpr hinf
        simp [this]
    simp [withinAllowedPrefixes, hEnd, hExcl]

/-! ## SHA-256

The Batch-Copy Launcher derives its client token with hashlib.sha256 over
the UTF-8 encoding of a pipe-joined base id; SHA-256 is embedded here in
full (FIPS 180-4) over Nat with explicit reduction modulo 2^32. -/

/-- Reduce to a 32-bit word. -/
def w32 (x : Nat) : Nat := x % 4294967296

/-- 32-bit right rotation. -/
def rotr32 (n x : Nat) : Nat := w32 ((x >>> n) ||| (x <<< (32 - n)))

/-- UTF-8 encoding of one character. -/
def charUtf8 (c : Char) : List Nat :=
  let n := c.toNat
  if n < 128 then [n]
  else if n < 2048 then [192 ||| (n >>> 6), 128 ||| (n &&& 63)]
  else if n < 65536 then
    [224 ||| (n >>> 12), 128 ||| ((n >>> 6) &&& 63), 128 ||| (n &&& 63)]
  else
    [240 ||| (n >>> 18), 128 ||| ((n >>> 12) &&& 63),
      128 ||| ((n >>> 6) &&& 63), 128 ||| (n &&& 63)]

/-- Python `s.encode("utf-8")` as a byte list. -/
def utf8Bytes (s : String) : List Nat :=
  s.data.foldr (fun c acc => charUtf8 c ++ acc) []

/-- Big-endian 8-byte rendering of a (bit-length) counter. -/
def be64 (n : Nat) : List Nat :=
  [(n >>> 56) % 256, (n >>> 48) % 256, (n >>> 40) % 256, (n >>> 32) % 256,
    (n >>> 24) % 256, (n >>> 16) % 256, (n >>> 8) % 256, n % 256]

/-- SHA-256 padding: append 0x80, zero bytes to 56 mod 64, and the 64-bit
big-endian message bit length. -/
def sha256Pad (m : List Nat) : List Nat :=
  m ++ [128] ++ List.replicate ((119 - m.length % 64) % 64) 0 ++ be64 (8 * m.length)

/-- Split a byte list into 64-byte chunks. -/
def chunks64 (l : List Nat) : List (List Nat) :=
  match l with
  | [] => []
  | _ :: rest => l.take 64 :: chunks64 (rest.drop 63)
termination_by l.length
decreasing_by
  simp only [List.length_drop, List.length_cons]
  omega

/-- Combine bytes into big-endian 32-bit words. -/
def beWords : List Nat → List Nat
  | a :: b :: c :: d :: rest => ((a <<< 24) ||| (b <<< 16) ||| (c <<< 8) ||| d) :: beWords rest
  | _ => []

/-- The 64 round constants (FIPS 180-4 section 4.2.2), in decimal. -/
def sha256K : List Nat :=
  [1116352408, 1899447441, 3049323471, 3921009573, 961987163, 1508970993,
   2453635748, 2870763221, 3624381080, 310598401, 607225278, 1426881987,
   1925078388, 2162078206, 2614888103, 3248222580, 3835390401, 4022224774,
   264347078, 604807628, 770255983, 1249150122, 1555081692, 1996064986,
   2554220882, 2821834349, 2952996808, 3210313671, 3336571891, 3584528711,
   113926993, 338241895, 666307205, 773529912, 1294757372, 1396182291,
   1695183700, 1986661051, 2177026350, 2456956037, 2730485921, 2820302411,
   3259730800, 3345764771, 3516065817, 3600352804, 4094571909, 275423344,
   430227734, 506948616, 659060556, 883997877, 958139571, 1322822218,
   1537002063, 1747873779, 1955562222, 2024104815, 2227730452, 2361852424,
   2428436474, 2756734187, 3204031479, 3329325298]

/-- The initial hash state (FIPS 180-4 section 5.3.3), in decimal. -/
def sha256Init : List Nat :=
  [1779033703, 3144134277, 1013904242, 2773480762,
   1359893119, 2600822924, 528734635, 1541459225]

/-- Extend the 16 chunk words to the 64-entry message schedule. -/
def sha256Schedule (w16 : List Nat) : List Nat :=
  (List.range 48).foldl
    (fun w _ =>
      let n := w.length
      let s0 :=
        rotr32 7 (w.getD (n - 15) 0) ^^^ rotr32 18 (w.getD (n - 15) 0) ^^^
          (w.getD (n - 15) 0 >>> 3)
      let s1 :=
        rotr32 17 (w.getD (n - 2) 0) ^^^ rotr32 19 (w.getD (n - 2) 0) ^^^
          (w.getD (n - 2) 0 >>> 10)
      w ++ [w32 (w.getD (n - 16) 0 + s0 + w.getD (n - 7) 0 + s1)])
    w16

/-- One compression round on the 8-word working state. -/
def sha256Round (st : List Nat) (k wt : Nat) : List Nat :=
  match st with
  | [a, b, c, d, e, f, g, h] =>
    let s1 := rotr32 6 e ^^^ rotr32 11 e ^^^ rotr32 25 e
    let ch := (e &&& f) ^^^ ((e ^^^ 4294967295) &&& g)
    let temp1 := w32 (h + s1 + ch + k + wt)
    let s0 := rotr32 2 a ^^^ rotr32 13 a ^^^ rotr32 22 a
    let maj := (a &&& b) ^^^ (a &&& c) ^^^ (b &&& c)
    let temp2 := w32 (s0 + maj)
    [w32 (temp1 + temp2), a, b, c, w32 (d + temp1), e, f, g]
  | other => other

/-- Process one 64-byte chunk. -/
def sha256Chunk (hs : List Nat) (chunk : List Nat) : List Nat :=
  let w := sha256Schedule (beWords chunk)
  let st := (sha256K.zip w).foldl (fun s kw => sha256Round s kw.1 kw.2) hs
  (hs.zip st).map fun p => w32 (p.1 + p.2)

/-- SHA-256 digest of a byte list, as eight 32-bit words. -/
def sha256Words (msg : List Nat) : List Nat :=
  (chunks64 (sha256Pad msg)).foldl sha256Chunk sha256Init

/-- The lowercase hex digit for a value below 16 (48 is the code of the
zero digit, 87 + 10 that of the letter a). -/
def hexDigit (n : Nat) : Char :=
  if n < 10 then Char.ofNat (48 + n) else Char.ofNat (87 + n)

/-- Lowercase 8-digit hex rendering of a 32-bit word. -/
def hex8 (n : Nat) : String :=
  ⟨(List.range 8).map fun i => hexDigit ((n >>> (28 - 4 * i)) % 16)⟩

/-- Python `hashlib.sha256(s.encode("utf-8")).hexdigest()`. -/
def sha256Hex (s : String) : String :=
  (sha256Words (utf8Bytes s)).foldl (fun acc ww => acc ++ hex8 ww) ""

/-! ## Batch-copy job submission

A create_job request is recorded by the fields the claims are about; a
submission handler returns the list of create_job calls it made (in
order) together with the number of fresh manifest metadata reads and its
final outcome. Store outcomes (success with a job id, or failure with an
error message) are oracle inputs. -/

structure CreateJobReq where
  token : String
  manifestArn : String
  manifestETag : String
  dataPath : String
  reportsPath : String
deriving DecidableEq, Repr

/-! ### The Batch-Copy Launcher (launch_batch_job/lambda_function.py) -/

structure LaunchEnv where
  centralBucket : String
  iniciativa : String

structure LaunchEvent where
  manifestBucket : String
  manifestKey : String
  sourceBucket : String
  backupType : String
  generation : Option String
  criticality : Option String
  windowLabel : Option String

/-- Source: `generation = event.get("generation", "father" if backup_type ==
"full" else "son")`. -/
def launchGeneration (e : LaunchEvent) : String :=
  e.generation.getD (if e.backupType = "full" then "father" else "son")

/-- Source: `criticality = event.get("criticality", "MenosCritico")`. -/
def launchCriticality (e : LaunchEvent) : String :=
  e.criticality.getD "MenosCritico"

/-- Source: a falsy window label (absent or empty) falls back to the
current time formatted as a window label. -/
def launchWindowLabel (e : LaunchEvent) (now : PyDateTime) : String :=
  match e.windowLabel with
  | some l => if l = "" then windowLabelOf now else l
  | none => windowLabelOf now

/-- Source: `base_id = f"{source_bucket}|{backup_type}|{generation}|
{criticality}|{window_label}"` followed by `hashlib.sha256(...).hexdigest()`. -/
def launchToken (e : LaunchEvent) (now : PyDateTime) : String :=
  sha256Hex (e.sourceBucket ++ "|" ++ e.backupType ++ "|" ++ launchGeneration e ++
    "|" ++ launchCriticality e ++ "|" ++ launchWindowLabel e now)

def launchDataPath (env : LaunchEnv) (e : LaunchEvent) (now : PyDateTime) : String :=
  "backup/criticality=" ++ launchCriticality e ++ "/backup_type=" ++ e.backupType ++
    "/generation=" ++ launchGeneration e ++ "/initiative=" ++ env.iniciativa ++
    "/bucket=" ++ e.sourceBucket ++ "/year=" ++ pad4 now.year ++ "/month=" ++
    pad2 now.month ++ "/day=" ++ pad2 now.day ++ "/hour=" ++ pad2 now.hour ++
    "/timestamp=" ++ launchWindowLabel e now

def launchReportsPath (env : LaunchEnv) (e : LaunchEvent) (now : PyDateTime) : String :=
  "reports/criticality=" ++ launchCriticality e ++ "/backup_type=" ++ e.backupType ++
    "/generation=" ++ launchGeneration e ++ "/initiative=" ++ env.iniciativa ++
    "/bucket=" ++ e.sourceBucket ++ "/year=" ++ pad4 now.year ++ "/month=" ++
    pad2 now.month ++ "/day=" ++ pad2 now.day ++ "/hour=" ++ pad2 now.hour

def launchFinalManifestKey (env : LaunchEnv) (e : LaunchEvent) (now : PyDateTime) : String :=
  "manifests/criticality=" ++ launchCriticality e ++ "/backup_type=" ++ e.backupType ++
    "/initiative=" ++ env.iniciativa ++ "/bucket=" ++ e.sourceBucket ++ "/year=" ++
    pad4 now.year ++ "/month=" ++ pad2 now.month ++ "/day=" ++ pad2 now.day ++
    "/hour=" ++ pad2 now.hour ++ "/manifest-" ++ launchWindowLabel e now ++ ".csv"

/-- Source launch_batch_job lambda_handler after event extraction: move the
manifest to its canonical location (outcome `moveResult`: the final
integrity tag, or an error), then issue exactly one create_job call with
the deterministic token; any create_job failure propagates with no retry.
Returns the list of create_job calls that were made and the outcome. -/
def launchRun (env : LaunchEnv) (e : LaunchEvent) (now : PyDateTime)
    (moveResult : Except String String) (createJobResult : Except String String) :
    List CreateJobReq × Except String String :=
  match moveResult with
  | .error m => ([], .error m)
  | .ok finalETag =>
    let req : CreateJobReq :=
      { token := launchToken e now
        manifestArn := "arn:aws:s3:::" ++ env.centralBucket ++ "/" ++
          launchFinalManifestKey env e now
        manifestETag := finalETag
        dataPath := launchDataPath env e now
        reportsPath := launchReportsPath env e now }
    match createJobResult with
    | .ok jobId => ([req], .ok jobId)
    | .error m => ([req], .error m)

/-! ### The Aggregator submission (incremental_backup/lambda_function.py) -/

structure AggGlobals where
  backupBucket : String
  backupBucketArn : String
  iniciativa : String
  generationIncremental : String

/-- Source submit_batch_job: the retry condition `"ETag" in error_msg or
"etag" in error_msg.lower()`. -/
def etagRelated (msg : String) : Bool :=
  pyContains msg "ETag" || pyContains (pyLower msg) "etag"

def aggDataPath (g : AggGlobals) (criticality sourceBucket : String)
    (windowStart : PyDateTime) : String :=
  "backup/criticality=" ++ criticality ++ "/backup_type=incremental/generation=" ++
    g.generationIncremental ++ "/initiative=" ++ g.iniciativa ++ "/bucket=" ++
    sourceBucket ++ "/year=" ++ pad4 windowStart.year ++ "/month=" ++
    pad2 windowStart.month ++ "/day=" ++ pad2 windowStart.day ++ "/hour=" ++
    pad2 windowStart.hour ++ "/window=" ++ windowLabelOf windowStart

def aggReportsPath (g : AggGlobals) (criticality sourceBucket windowLabel runId : String) :
    String :=
  "reports/criticality=" ++ criticality ++ "/backup_type=incremental/initiative=" ++
    g.iniciativa ++ "/bucket=" ++ sourceBucket ++ "/window=" ++ windowLabel ++
    "/run=" ++ runId

structure AggSubmitTrace where
  reqs : List CreateJobReq
  headReads : Nat
deriving DecidableEq, Repr

/-- Source submit_batch_job: one create_job call whose client token is a
freshly drawn uuid4 (`uuid1`); on a store failure whose message mentions
the integrity tag, one fresh metadata read (yielding `freshETag`) and one
more create_job call with another fresh uuid4 (`uuid2`); a second failure,
or a first failure of any other kind, propagates. -/
def aggSubmitBatchJob (g : AggGlobals) (criticality sourceBucket : String)
    (windowStart : PyDateTime) (manifestKey manifestETag runId : String)
    (uuid1 : String) (createJob1 : Except String String)
    (freshETag : String) (uuid2 : String) (createJob2 : Except String String) :
    AggSubmitTrace × Except String String :=
  let wl := windowLabelOf windowStart
  let req1 : CreateJobReq :=
    { token := uuid1
      manifestArn := "arn:aws:s3:::" ++ g.backupBucket ++ "/" ++ manifestKey
      manifestETag := manifestETag
      dataPath := aggDataPath g criticality sourceBucket windowStart
      reportsPath := aggReportsPath g criticality sourceBucket wl runId }
  match createJob1 with
  | .ok jobId => (⟨[req1], 0⟩, .ok jobId)
  | .error m =>
    if etagRelated m then
      let req2 : CreateJobReq := { req1 with token := uuid2, manifestETag := freshETag }
      match createJob2 with
      | .ok jobId => (⟨[req1, req2], 1⟩, .ok jobId)
      | .error m2 => (⟨[req1, req2], 1⟩, .error m2)
    else (⟨[req1], 0⟩, .error m)

/-! ### Claims C1 and C3 -/

/-- C1 counterexample: two Aggregator submissions for the very same
(source, tier, window) group present the client tokens they were given by
uuid4, which differ between the two submissions; the token is not a
deterministic function of the group. -/
theorem agg_token_not_deterministic :
    ((aggSubmitBatchJob ⟨"central", "arn:aws:s3:::central", "backup", "son"⟩
        "Critico" "b-1" ⟨2025, 10, 20, 12, 0, 0, 0⟩ "m.csv" "T1" "r1"
        "5b3f0d1a-1111" (.ok "J1") "T1" "x" (.ok "x")).1.reqs.map fun r => r.token) =
      ["5b3f0d1a-1111"] ∧
    ((aggSubmitBatchJob ⟨"central", "arn:aws:s3:::central", "backup", "son"⟩
        "Critico" "b-1" ⟨2025, 10, 20, 12, 0, 0, 0⟩ "m.csv" "T1" "r1"
        "9c4e7f2b-2222" (.ok "J2") "T1" "x" (.ok "x")).1.reqs.map fun r => r.token) =
      ["9c4e7f2b-2222"] ∧
    ("5b3f0d1a-1111" : String) ≠ "9c4e7f2b-2222" := by
  refine ⟨rfl, rfl, by decide⟩

/-- Regrouping of the pipe-joined base id around the literal middle part. -/
theorem launch_base_id_eq (s tier wl : String) :
    s ++ "|" ++ "incremental" ++ "|" ++ "son" ++ "|" ++ tier ++ "|" ++ wl =
      s ++ "|incremental|son|" ++ tier ++ "|" ++ wl := by
  apply String.ext
  simp [String.data_append, List.append_assoc]

/-- C1 amended: the deterministic client token belongs to the Batch-Copy
Launcher, not the Aggregator. For an incremental submission with default
generation, the Launcher token is sha256 of source, "incremental", "son",
tier and window joined by pipes, so any two Launcher submissions for the
same group carry the same token whatever the clock or the store outcomes
were. -/
theorem launcher_token_deterministic (e : LaunchEvent) (tier wl : String)
    (now1 now2 : PyDateTime)
    (hbt : e.backupType = "incremental") (hgen : e.generation = none)
    (hcrit : e.criticality = some tier) (hwl : e.windowLabel = some wl)
    (hne : wl ≠ "") :
    launchToken e now1 =
      sha256Hex (e.sourceBucket ++ "|incremental|son|" ++ tier ++ "|" ++ wl) ∧
    launchToken e now1 = launchToken e now2 ∧
    ∀ mv cj r, r ∈ (launchRun ⟨"central", "bk"⟩ e now1 mv cj).1 →
      r.token = launchToken e now1 := by
  have hlab : ∀ now, launchWindowLabel e now = wl := by
    intro now
    simp [launchWindowLabel, hwl, hne]
  have htok : ∀ now, launchToken e now =
      sha256Hex (e.sourceBucket ++ "|incremental|son|" ++ tier ++ "|" ++ wl) := by
    intro now
    simp only [launchToken, launchGeneration, launchCriticality, hbt, hgen, hcrit,
      hlab, Option.getD_none, Option.getD_some]
    rw [if_neg (by decide : ¬ ("incremental" : String) = "full")]
    exact congrArg sha256Hex (launch_base_id_eq e.sourceBucket tier wl)
  refine ⟨htok now1, (htok now1).trans (htok now2).symm, ?_⟩
  intro mv cj r hr
  cases mv with
  | error m => simp [launchRun] at hr
  | ok tag =>
    cases cj with
    | ok j =>
      simp only [launchRun, List.mem_singleton] at hr
      rw [hr]
    | error m =>
      simp only [launchRun, List.mem_singleton] at hr
      rw [hr]

/-- Witness for C1 amended at a concrete incremental Launcher event. -/
theorem launcher_token_deterministic_witness :
    (({ manifestBucket := "central", manifestKey := "manifests/temp/t.csv",
        sourceBucket := "b-1", backupType := "incremental", generation := none,
        criticality := some "Critico", windowLabel := some "20251020T1200Z" } :
        LaunchEvent).backupType = "incremental") ∧
    launchToken
        { manifestBucket := "central", manifestKey := "manifests/temp/t.csv",
          sourceBucket := "b-1", backupType := "incremental", generation := none,
          criticality := some "Critico", windowLabel := some "20251020T1200Z" }
        ⟨2025, 10, 20, 13, 0, 0, 0⟩ =
      sha256Hex ("b-1" ++ "|incremental|son|" ++ "Critico" ++ "|" ++ "20251020T1200Z") :=
  ⟨rfl,
    (launcher_token_deterministic
      { manifestBucket := "central", manifestKey := "manifests/temp/t.csv",
        sourceBucket := "b-1", backupType := "incremental", generation := none,
        criticality := some "Critico", windowLabel := some "20251020T1200Z" }
      "Critico" "20251020T1200Z" ⟨2025, 10, 20, 13, 0, 0, 0⟩
      ⟨2025, 10, 21, 9, 30, 0, 0⟩ rfl rfl rfl rfl (by decide)).1⟩

/-- C3 counterexample: a Batch-Copy Launcher submission that fails with a
store-reported integrity-tag mismatch makes exactly one create_job call
and propagates the error: no fresh metadata read, no second submission. -/
theorem launcher_no_etag_retry :
    (launchRun ⟨"central", "backup"⟩
        { manifestBucket := "central", manifestKey := "manifests/temp/t.csv",
          sourceBucket := "b-1", backupType := "incremental", generation := none,
          criticality := some "Critico", windowLabel := some "20251020T1200Z" }
        ⟨2025, 10, 20, 13, 0, 0, 0⟩ (.ok "T1")
        (.error "InvalidRequest: ETag mismatch")).1.length = 1 ∧
    (launchRun ⟨"central", "backup"⟩
        { manifestBucket := "central", manifestKey := "manifests/temp/t.csv",
          sourceBucket := "b-1", backupType := "incremental", generation := none,
          criticality := some "Critico", windowLabel := some "20251020T1200Z" }
        ⟨2025, 10, 20, 13, 0, 0, 0⟩ (.ok "T1")
        (.error "InvalidRequest: ETag mismatch")).2 =
      .error "InvalidRequest: ETag mismatch" ∧
    etagRelated "InvalidRequest: ETag mismatch" = true :=
  ⟨rfl, rfl, by decide⟩

/-- C3 amended: the Aggregator submission alone retries on an
integrity-tag-related failure: it performs exactly one fresh metadata
read, exactly one further create_job call carrying the freshly read tag,
and a failure of that single retry propagates as the submission outcome. -/
theorem agg_submit_etag_retry_once (g : AggGlobals) (crit src : String)
    (ws : PyDateTime) (mk etag rid u1 m fe u2 : String)
    (cj2 : Except String String) (hm : etagRelated m = true) :
    ((aggSubmitBatchJob g crit src ws mk etag rid u1 (.error m) fe u2 cj2).1.headReads
        = 1) ∧
    ((aggSubmitBatchJob g crit src ws mk etag rid u1 (.error m) fe u2 cj2).1.reqs.map
        fun r => r.manifestETag) = [etag, fe] ∧
    (∀ m2, cj2 = .error m2 →
      (aggSubmitBatchJob g crit src ws mk etag rid u1 (.error m) fe u2 cj2).2 =
        .error m2) ∧
    (∀ j, cj2 = .ok j →
      (aggSubmitBatchJob g crit src ws mk etag rid u1 (.error m) fe u2 cj2).2 =
        .ok j) := by
  cases cj2 with
  | ok j =>
    refine ⟨by simp [aggSubmitBatchJob, hm], by simp [aggSubmitBatchJob, hm], ?_, ?_⟩
    · intro m2 hcon; exact absurd hcon (by simp)
    · intro j2 hj
      have : j2 = j := by simpa using hj.symm
      subst this
      simp [aggSubmitBatchJob, hm]
  | error m2 =>
    refine ⟨by simp [aggSubmitBatchJob, hm], by simp [aggSubmitBatchJob, hm], ?_, ?_⟩
    · intro m3 hm3
      have : m3 = m2 := by simpa using hm3.symm
      subst this
      simp [aggSubmitBatchJob, hm]
    · intro j hj; exact absurd hj (by simp)

/-- Witness for C3 amended: a concrete mismatch message, with the retry
also failing. -/
theorem agg_submit_etag_retry_once_witness :
    etagRelated "InvalidRequest: ETag mismatch" = true ∧
    ((aggSubmitBatchJob ⟨"central", "arn:aws:s3:::central", "backup", "son"⟩
        "Critico" "b-1" ⟨2025, 10, 20, 12, 0, 0, 0⟩ "m.csv" "T1" "r1"
        "u-1" (.error "InvalidRequest: ETag mismatch") "T2" "u-2"
        (.error "boom")).1.headReads = 1) :=
  ⟨by decide,
    (agg_submit_etag_retry_once ⟨"central", "arn:aws:s3:::central", "backup", "son"⟩
      "Critico" "b-1" ⟨2025, 10, 20, 12, 0, 0, 0⟩ "m.csv" "T1" "r1" "u-1"
      "InvalidRequest: ETag mismatch" "T2" "u-2" (.error "boom") (by decide)).1⟩

/-! ## The Sweep Planner (filter_inventory/lambda_function.py)

Inventory shards are modelled at row granularity: a shard either
contributes its decoded rows or nothing (an absent data file or a falsy
shard key is skipped by the source); a row carries the three schema
columns the code reads, with an unparsable LastModifiedDate rendered as
none. The multipart-upload part flushing is byte-size driven in the
source and is modelled as a single part upload before finalization; the
claims only concern creation, abort, completion and the checkpoint
write. -/

structure SweepEnv where
  forceFullOnFirstRun : Bool
  fallbackMaxObjects : Nat
  fallbackTimeLimitSeconds : Nat
  allowedPref : String → List String

structure InvRow where
  bucket : String
  key : String
  lastModified : Option PyDateTime

structure InvShard where
  present : Bool
  rows : List InvRow

structure SweepEvent where
  backupBucket : String
  sourceBucket : String
  backupType : String
  inventoryKey : String
  criticality : Option String

structure ManifestInfo where
  bucket : String
  key : String
  etag : String
deriving DecidableEq, Repr

inductive SweepAction
  | createMpu (key : String)
  | uploadPart (key : String)
  | abortMpu (key : String)
  | completeMpu (key : String)
  | writeSweepCheckpoint (mode : String)
  | submitBatchCopyJob
deriving DecidableEq, Repr

structure SweepResult where
  status : String
  manifest : Option ManifestInfo
  backupType : Option String
deriving DecidableEq, Repr

/-- Source stream_inventory_to_manifest row filter: skip a row with an
unparsable date; keep it only if the allowed list is empty or some
allowed value is a key head, and only if it is strictly newer than the
checkpoint when one is present. No exclude list is consulted. -/
def invRowKeep (allowed : List String) (lastCp : Option PyDateTime) (row : InvRow) : Bool :=
  match row.lastModified with
  | none => false
  | some d =>
    (allowed.isEmpty || allowed.any fun p => pyStartswith row.key p) &&
      (match lastCp with
       | none => true
       | some cp => !(pyDTle d cp))

/-- Rows written by the inventory streaming path, in shard order. -/
def streamInventoryRows (allowed : List String) (lastCp : Option PyDateTime)
    (shards : List InvShard) : List (String × String) :=
  shards.foldl
    (fun acc sh =>
      if sh.present then
        acc ++ (sh.rows.filter (invRowKeep allowed lastCp)).map fun r => (r.bucket, r.key)
      else acc)
    []

/-- A listed object in the fallback path. -/
structure FObj where
  key : String
  lastModified : Option PyDateTime

/-- Source generate_manifest_from_listing innermost loop over one page:
the checkpoint filter, then the row write, then the two safety caps whose
`break` leaves only this loop. The accumulator is (objects found, number
of elapsed-clock reads so far, rows); `elapsed` is the wall clock oracle
indexed by read count. -/
def fbObjLoop (maxObjs timeLim : Nat) (cp : Option PyDateTime) (elapsed : Nat → Nat)
    (src : String) :
    List FObj → Nat × Nat × List (String × String) → Nat × Nat × List (String × String)
  | [], st => st
  | o :: rest, (found, ticks, rows) =>
    let skip :=
      match cp, o.lastModified with
      | some c, some lm => pyDTle lm c
      | _, _ => false
    if skip then fbObjLoop maxObjs timeLim cp elapsed src rest (found, ticks, rows)
    else
      let found1 := found + 1
      let rows1 := rows ++ [(src, o.key)]
      if maxObjs ≠ 0 ∧ found1 ≥ maxObjs then (found1, ticks, rows1)
      else if timeLim ≠ 0 then
        if elapsed ticks ≥ timeLim then (found1, ticks + 1, rows1)
        else fbObjLoop maxObjs timeLim cp elapsed src rest (found1, ticks + 1, rows1)
      else fbObjLoop maxObjs timeLim cp elapsed src rest (found1, ticks, rows1)

/-- The page loop: a `break` in the object loop does not leave this loop,
so the next page is processed regardless. -/
def fbPages (maxObjs timeLim : Nat) (cp : Option PyDateTime) (elapsed : Nat → Nat)
    (src : String) (pages : List (List FObj))
    (st : Nat × Nat × List (String × String)) : Nat × Nat × List (String × String) :=
  pages.foldl (fun s page => fbObjLoop maxObjs timeLim cp elapsed src page s) st

/-- Source generate_manifest_from_listing: iterate the allowed values (or
the single empty one), page-listing each; `listing` is the paginator
oracle giving the pages for an iterated value. -/
def fallbackRows (env : SweepEnv) (criticality : String) (cp : Option PyDateTime)
    (src : String) (elapsed : Nat → Nat) (listing : String → List (List FObj)) :
    List (String × String) :=
  let ps :=
    match env.allowedPref criticality with
    | [] => [""]
    | ps => ps
  (ps.foldl
      (fun st pfx =>
        fbPages env.fallbackMaxObjects env.fallbackTimeLimitSeconds cp elapsed src
          (listing pfx) st)
      (0, 0, [])).2.2

/-- Source lambda_handler: `effective_backup_type` starts as the request
mode and is escalated to "full" exactly when the mode is incremental, the
sweep checkpoint is absent and FORCE_FULL_ON_FIRST_RUN is set; the
enumeration descriptor is not consulted. -/
def sweepEffectiveType (backupType : String) (lastCp : Option PyDateTime)
    (forceFull : Bool) : String :=
  if backupType = "incremental" ∧ lastCp = none ∧ forceFull = true then "full"
  else backupType

/-- The rows the Sweep Planner run writes: from the latest enumeration
descriptor when one exists, else from the fallback listing; the
checkpoint filter is dropped when the effective mode is full. -/
def sweepRows (env : SweepEnv) (ev : SweepEvent) (descriptor : Option (List InvShard))
    (lastCp : Option PyDateTime) (elapsed : Nat → Nat)
    (listing : String → List (List FObj)) : List (String × String) :=
  let criticality := ev.criticality.getD "MenosCritico"
  let eff := sweepEffectiveType ev.backupType lastCp env.forceFullOnFirstRun
  let cpF := if eff = "full" then none else lastCp
  match descriptor with
  | some shards => streamInventoryRows (env.allowedPref criticality) cpF shards
  | none => fallbackRows env criticality cpF ev.sourceBucket elapsed listing

/-- Source lambda_handler around the manifest writer: zero rows abort the
multipart upload and yield the terminal EMPTY result before any
checkpoint write; otherwise the upload is finalized, the sweep checkpoint
written (under the effective type when escalation is enabled, else the
requested type) and SUCCESS returned. The Sweep Planner never calls
create_job. -/
def sweepRun (env : SweepEnv) (ev : SweepEvent) (descriptor : Option (List InvShard))
    (lastCp : Option PyDateTime) (tempKey etag : String) (elapsed : Nat → Nat)
    (listing : String → List (List FObj)) : List SweepAction × SweepResult :=
  let rows := sweepRows env ev descriptor lastCp elapsed listing
  if rows.isEmpty then
    ([.createMpu tempKey, .abortMpu tempKey],
      { status := "EMPTY", manifest := none, backupType := none })
  else
    let eff := sweepEffectiveType ev.backupType lastCp env.forceFullOnFirstRun
    let cpType := if env.forceFullOnFirstRun then eff else ev.backupType
    ([.createMpu tempKey, .uploadPart tempKey, .completeMpu tempKey,
        .writeSweepCheckpoint cpType],
      { status := "SUCCESS", manifest := some ⟨ev.backupBucket, tempKey, etag⟩,
        backupType := some eff })

/-! ### Claims C4, C5 (sweep side), C6, C7 -/

/-- C4 counterexample: with an enumeration descriptor present (and
nonempty), requested mode incremental, no sweep checkpoint and escalation
enabled, the Sweep Planner still escalates to full: the descriptor plays
no role in the escalation decision, against the four-condition claim. -/
theorem sweep_escalates_with_descriptor_present :
    (sweepRun ⟨true, 0, 0, fun _ => []⟩
        ⟨"central", "b-1", "incremental", "inventory-source/b-1", some "Critico"⟩
        (some [⟨true, [⟨"b-1", "data/a.txt", some ⟨2025, 10, 20, 12, 0, 0, 0⟩⟩]⟩])
        none "manifests/temp/b-1-u.csv" "E" (fun _ => 0) (fun _ => [])).2 =
      { status := "SUCCESS",
        manifest := some ⟨"central", "manifests/temp/b-1-u.csv", "E"⟩,
        backupType := some "full" } ∧
    ("full" : String) ≠ "incremental" :=
  ⟨rfl, by decide⟩

/-- C4 amended: the effective mode is full exactly when the requested mode
already is, or when the three checked conditions hold (mode incremental,
no sweep checkpoint, escalation enabled); in every other case the
requested mode is preserved. Descriptor existence is not consulted. -/
theorem sweep_effective_mode_three_conditions :
    ∀ (bt : String) (cp : Option PyDateTime) (ff : Bool),
      (sweepEffectiveType bt cp ff = "full" ↔
        bt = "full" ∨ (bt = "incremental" ∧ cp = none ∧ ff = true)) ∧
      (sweepEffectiveType bt cp ff = bt ∨
        (bt = "incremental" ∧ cp = none ∧ ff = true)) := by
  intro bt cp ff
  by_cases h : bt = "incremental" ∧ cp = none ∧ ff = true
  · obtain ⟨h1, h2, h3⟩ := h
    subst h1; subst h2; subst h3
    refine ⟨?_, Or.inr ⟨rfl, rfl, rfl⟩⟩
    simp [sweepEffectiveType]
  · unfold sweepEffectiveType
    rw [if_neg h]
    refine ⟨⟨fun hbt => Or.inl hbt, ?_⟩, Or.inl rfl⟩
    rintro (hbt | hc)
    · exact hbt
    · exact absurd hc h

/-- C5 counterexample: with "tmp" a configured exclude value (as the
Aggregator environment holds it), the inventory sweep still emits the key
"tmp/x" into its manifest: the Sweep Planner consults no exclude list, so
a key of the excluded form p/... appears in a produced manifest even
though the Aggregator filter rejects that very key. -/
theorem sweep_manifest_contains_excluded_key :
    sweepRows ⟨false, 0, 0, fun _ => []⟩
        ⟨"central", "b-1", "full", "inventory-source/b-1", some "Critico"⟩
        (some [⟨true, [⟨"b-1", "tmp/x", some ⟨2025, 10, 20, 12, 0, 0, 0⟩⟩]⟩]) none
        (fun _ => 0) (fun _ => []) = [("b-1", "tmp/x")] ∧
    (sweepRun ⟨false, 0, 0, fun _ => []⟩
        ⟨"central", "b-1", "full", "inventory-source/b-1", some "Critico"⟩
        (some [⟨true, [⟨"b-1", "tmp/x", some ⟨2025, 10, 20, 12, 0, 0, 0⟩⟩]⟩]) none
        "manifests/temp/b-1-u.csv" "E" (fun _ => 0) (fun _ => [])).2.status =
      "SUCCESS" ∧
    pyStartswith "tmp/x" ("tmp" ++ "/") = true ∧
    "tmp" ∈
      (⟨["tmp"], [], fun _ => [], fun _ => none, fun _ => "MenosCritico", false⟩ :
        AggEnv).exKeyPref ∧
    withinAllowedPrefixes
        ⟨["tmp"], [], fun _ => [], fun _ => none, fun _ => "MenosCritico", false⟩
        "Critico" "tmp/x" = false :=
  ⟨rfl, rfl, by decide, by decide, by decide⟩

/-- C6: with FALLBACK_MAX_OBJECTS = 1 and two listing pages of one object
each, the fallback enumeration emits two rows: the cap `break` leaves only
the innermost object loop, and iteration resumes with the next page (and
with the next allowed value), so the finalized manifest exceeds the cap. -/
theorem fallback_cap_exceeded_across_pages :
    fallbackRows ⟨false, 1, 0, fun _ => []⟩ "Critico" none "b-1" (fun _ => 0)
        (fun _ => [[⟨"a.txt", none⟩], [⟨"b.txt", none⟩]]) =
      [("b-1", "a.txt"), ("b-1", "b.txt")] ∧
    (sweepRun ⟨false, 1, 0, fun _ => []⟩
        ⟨"central", "b-1", "full", "inventory-source/b-1", some "Critico"⟩ none none
        "manifests/temp/b-1-u.csv" "E" (fun _ => 0)
        (fun _ => [[⟨"a.txt", none⟩], [⟨"b.txt", none⟩]])).2.status = "SUCCESS" ∧
    ¬((fallbackRows ⟨false, 1, 0, fun _ => []⟩ "Critico" none "b-1" (fun _ => 0)
        (fun _ => [[⟨"a.txt", none⟩], [⟨"b.txt", none⟩]])).length ≤ 1) :=
  ⟨rfl, rfl, by decide⟩

/-- C7: a Sweep Planner run that produces zero rows aborts the in-progress
multipart upload, finalizes nothing, writes no sweep checkpoint, submits
no batch-copy job, and returns the terminal status EMPTY with no
manifest. -/
theorem sweep_zero_rows_terminal_empty (env : SweepEnv) (ev : SweepEvent)
    (desc : Option (List InvShard)) (cp : Option PyDateTime) (tempKey etag : String)
    (elapsed : Nat → Nat) (listing : String → List (List FObj))
    (h : sweepRows env ev desc cp elapsed listing = []) :
    (sweepRun env ev desc cp tempKey etag elapsed listing).2.status = "EMPTY" ∧
    (sweepRun env ev desc cp tempKey etag elapsed listing).2.manifest = none ∧
    SweepAction.abortMpu tempKey ∈ (sweepRun env ev desc cp tempKey etag elapsed listing).1 ∧
    (∀ m, SweepAction.writeSweepCheckpoint m ∉
      (sweepRun env ev desc cp tempKey etag elapsed listing).1) ∧
    SweepAction.completeMpu tempKey ∉ (sweepRun env ev desc cp tempKey etag elapsed listing).1 ∧
    SweepAction.submitBatchCopyJob ∉ (sweepRun env ev desc cp tempKey etag elapsed listing).1 := by
  have hrun : sweepRun env ev desc cp tempKey etag elapsed listing =
      ([.createMpu tempKey, .abortMpu tempKey],
        { status := "EMPTY", manifest := none, backupType := none }) := by
    unfold sweepRun
    rw [h]
    rfl
  refine ⟨?_, ?_, ?_, ?_, ?_, ?_⟩ <;> rw [hrun] <;> simp

/-- Witness for C7: an empty enumeration descriptor with no shards. -/
theorem sweep_zero_rows_terminal_empty_witness :
    sweepRows ⟨false, 0, 0, fun _ => []⟩
        ⟨"central", "b-1", "incremental", "inventory-source/b-1", some "Critico"⟩
        (some []) none (fun _ => 0) (fun _ => []) = [] ∧
    (sweepRun ⟨false, 0, 0, fun _ => []⟩
        ⟨"central", "b-1", "incremental", "inventory-source/b-1", some "Critico"⟩
        (some []) none "manifests/temp/b-1-u.csv" "E" (fun _ => 0)
        (fun _ => [])).2.status = "EMPTY" :=
  ⟨rfl,
    (sweep_zero_rows_terminal_empty ⟨false, 0, 0, fun _ => []⟩
      ⟨"central", "b-1", "incremental", "inventory-source/b-1", some "Critico"⟩
      (some []) none "manifests/temp/b-1-u.csv" "E" (fun _ => 0) (fun _ => [])
      rfl).1⟩

/-! ## The Aggregator handler (incremental_backup/lambda_function.py)

A queue record carries a message id ("" when absent, matching Python
falsiness) and a body that either fails to decode or yields the event
records; an event record either lacks the expected s3 fields (silently
skipped), raises while being processed (an unparsable event time, a
failing tag lookup), or yields (bucket, key, event time). Grouping uses
insertion-ordered association lists, matching dict and set-insertion
semantics; the set-add keeps the first occurrence. The effectful commit
of one group (manifest upload, job submission, marker write) is driven by
a per-group outcome oracle. -/

inductive S3Entry
  | skip
  | obj (bucket key : String) (eventTime : PyDateTime)
  | bad
deriving DecidableEq, Repr

inductive MsgBody
  | invalid
  | event (recs : List S3Entry)
deriving DecidableEq, Repr

structure SqsRecord where
  msgId : String
  body : MsgBody
deriving DecidableEq, Repr

abbrev GroupKey := String × String × String

/-- Python `d.setdefault(k, set()).add(v)` over an insertion-ordered
association list, adding v only when absent. -/
def alAdd (gk : GroupKey) (v : String) :
    List (GroupKey × List String) → List (GroupKey × List String)
  | [] => [(gk, [v])]
  | (k, vs) :: rest =>
    if k = gk then (k, if v ∈ vs then vs else vs ++ [v]) :: rest
    else (k, vs) :: alAdd gk v rest

/-- Python `d[k] = x` over an insertion-ordered association list. -/
def alSet (gk : GroupKey) (d : PyDateTime) :
    List (GroupKey × PyDateTime) → List (GroupKey × PyDateTime)
  | [] => [(gk, d)]
  | (k, x) :: rest => if k = gk then (k, d) :: rest else (k, x) :: alSet gk d rest

/-- Python `d.get(k, set())` as a list. -/
def alGet (gk : GroupKey) : List (GroupKey × List String) → List String
  | [] => []
  | (k, vs) :: rest => if k = gk then vs else alGet gk rest

structure GroupState where
  groups : List (GroupKey × List String)
  meta : List (GroupKey × PyDateTime)
  msgIds : List (GroupKey × List String)

/-- Source lambda_handler inner record loop body for one object record:
resolve criticality, look up the tier frequency (skip when none), apply
the object filter, then insert the key into its (criticality, bucket,
window label) group, record the window start and the originating message
id (when present). -/
def processEntry (env : AggEnv) (mid : String) (st : GroupState)
    (bucket key : String) (eventTime : PyDateTime) : GroupState :=
  let crit := env.criticalityOf bucket
  match getFrequencyHours env crit with
  | none => st
  | some freqHours =>
    if withinAllowedPrefixes env crit key then
      let ws := computeWindowStart eventTime freqHours
      let lbl := windowLabelOf ws
      let gk : GroupKey := (crit, bucket, lbl)
      { groups := alAdd gk key st.groups
        meta := alSet gk ws st.meta
        msgIds := if mid ≠ "" then alAdd gk mid st.msgIds else st.msgIds }
    else st

/-- The inner loop over one message's records; a raising record aborts the
rest of that message's records (the exception is caught per message) but
keeps the groups already filled. -/
def processEntries (env : AggEnv) (mid : String) (st : GroupState) :
    List S3Entry → GroupState × Bool
  | [] => (st, false)
  | .bad :: _ => (st, true)
  | .skip :: rest => processEntries env mid st rest
  | .obj bucket key t :: rest =>
    processEntries env mid (processEntry env mid st bucket key t) rest

/-- Source lambda_handler first loop: decode each queue message; a decoding
failure or a raising record marks that message (when it has an id) as a
partial failure and processing continues with the next message. -/
def parseRecords (env : AggEnv) :
    List SqsRecord → GroupState → List String → GroupState × List String
  | [], st, failed => (st, failed)
  | r :: rest, st, failed =>
    match r.body with
    | .invalid =>
      parseRecords env rest st (if r.msgId ≠ "" then failed ++ [r.msgId] else failed)
    | .event recs =>
      let res := processEntries env r.msgId st recs
      parseRecords env rest res.1
        (if res.2 ∧ r.msgId ≠ "" then failed ++ [r.msgId] else failed)

/-- Store outcomes for one group's commit: whether the manifest upload
succeeds, whether the batch job submission succeeds (counting its internal
retry), and whether the window marker write succeeds. -/
structure GroupOutcome where
  uploadOk : Bool
  submitOk : Bool
  markerOk : Bool

structure AggAcc where
  jobs : List GroupKey
  manifests : List GroupKey
  markers : List GroupKey
  failed : List String

/-- Source lambda_handler group loop body: skip empty groups; when window
checkpointing is enabled and the marker exists, skip before any manifest
or job is created; otherwise upload the manifest (failure maps the
group's message ids to partial failures), submit the batch job (failure
likewise), then attempt the marker write whose failure is only logged. -/
def stepGroup (env : AggEnv) (oracle : GroupKey → GroupOutcome)
    (msgIdsOf : GroupKey → List String) (acc : AggAcc) (g : GroupKey × List String) :
    AggAcc :=
  if g.2 = [] then acc
  else if ¬env.disableWindowCheckpoint ∧ g.1 ∈ acc.markers then acc
  else if (oracle g.1).uploadOk = false then
    { acc with failed := acc.failed ++ msgIdsOf g.1 }
  else if (oracle g.1).submitOk = false then
    { acc with manifests := acc.manifests ++ [g.1],
               failed := acc.failed ++ msgIdsOf g.1 }
  else if ¬env.disableWindowCheckpoint ∧ (oracle g.1).markerOk then
    { acc with manifests := acc.manifests ++ [g.1], jobs := acc.jobs ++ [g.1],
               markers := acc.markers ++ [g.1] }
  else
    { acc with manifests := acc.manifests ++ [g.1], jobs := acc.jobs ++ [g.1] }

/-- Deduplication keeping first occurrences, with the elements already
emitted accumulated in `seen`. -/
def listDedupAux (seen : List String) : List String → List String
  | [] => []
  | x :: rest =>
    if x ∈ seen then listDedupAux seen rest
    else x :: listDedupAux (seen ++ [x]) rest

/-- Python `list({mid for mid in failed if mid})` up to the set's arbitrary
order: deduplication keeping first occurrences. -/
def listDedup (l : List String) : List String := listDedupAux [] l

structure AggRunOut where
  jobs : List GroupKey
  manifests : List GroupKey
  markers : List GroupKey
  failures : List String

/-- Source lambda_handler end to end: parse and group the queue records,
run the group loop against the marker store `markers0`, and return the
jobs created, the manifests uploaded, the final marker store and the
partial-batch failure ids. -/
def lambdaHandlerAgg (env : AggEnv) (oracle : GroupKey → GroupOutcome)
    (markers0 : List GroupKey) (records : List SqsRecord) : AggRunOut :=
  let parsed := parseRecords env records ⟨[], [], []⟩ []
  let acc := parsed.1.groups.foldl
    (stepGroup env oracle fun gk => alGet gk parsed.1.msgIds)
    ⟨[], [], markers0, parsed.2⟩
  { jobs := acc.jobs, manifests := acc.manifests, markers := acc.markers,
    failures := listDedup (acc.failed.filter fun mid => mid ≠ "") }

/-- Insertion into a sorted list of keys (Python `sorted`). -/
def insertStr (x : String) : List String → List String
  | [] => [x]
  | y :: rest => if x ≤ y then x :: y :: rest else y :: insertStr x rest

/-- Python `sorted(object_keys)`. -/
def sortStrings : List String → List String
  | [] => []
  | x :: rest => insertStr x (sortStrings rest)

/-- The CSV rows of the manifest the Aggregator uploads for one group:
`(source_bucket, key)` for each key of the group, keys sorted. -/
def aggManifestRows (env : AggEnv) (records : List SqsRecord) (gk : GroupKey) :
    List (String × String) :=
  (sortStrings (alGet gk (parseRecords env records ⟨[], [], []⟩ []).1.groups)).map
    fun k => (gk.2.1, k)

/-- A record whose body decodes and whose records all process without
raising. -/
def recordClean (r : SqsRecord) : Bool :=
  match r.body with
  | .invalid => false
  | .event recs => recs.all fun e => e ≠ S3Entry.bad

/-! ### Invariants of the grouping phase -/

theorem alAdd_ne (gk : GroupKey) (v : String) (al : List (GroupKey × List String))
    (h : ∀ e ∈ al, e.2 ≠ []) : ∀ e ∈ alAdd gk v al, e.2 ≠ [] := by
  induction al with
  | nil =>
    intro e he
    simp only [alAdd, List.mem_singleton] at he
    subst he
    simp
  | cons hd t ih =>
    obtain ⟨k, vs⟩ := hd
    intro e he
    unfold alAdd at he
    split at he
    · rcases List.mem_cons.mp he with heq | ht
      · subst heq
        by_cases hv : v ∈ vs
        · simpa [hv] using h (k, vs) (List.mem_cons_self _ _)
        · simp [hv]
      · exact h e (List.mem_cons_of_mem _ ht)
    · rcases List.mem_cons.mp he with heq | ht
      · subst heq
        exact h (k, vs) (List.mem_cons_self _ _)
      · exact ih (fun e' he' => h e' (List.mem_cons_of_mem _ he')) e ht

theorem alAdd_inv (env : AggEnv) (gk : GroupKey) (v : String)
    (al : List (GroupKey × List String))
    (h : ∀ e ∈ al, ∀ k ∈ e.2, withinAllowedPrefixes env e.1.1 k = true)
    (hv : withinAllowedPrefixes env gk.1 v = true) :
    ∀ e ∈ alAdd gk v al, ∀ k ∈ e.2, withinAllowedPrefixes env e.1.1 k = true := by
  induction al with
  | nil =>
    intro e he k hk
    simp only [alAdd, List.mem_singleton] at he
    subst he
    simp only [List.mem_singleton] at hk
    subst hk
    exact hv
  | cons hd t ih =>
    obtain ⟨kk, vs⟩ := hd
    intro e he k hk
    unfold alAdd at he
    split at he
    · next heq =>
      rcases List.mem_cons.mp he with hee | ht
      · subst hee
        simp only at hk
        by_cases hv2 : v ∈ vs
        · rw [if_pos hv2] at hk
          exact h (kk, vs) (List.mem_cons_self _ _) k hk
        · rw [if_neg hv2] at hk
          rcases List.mem_append.mp hk with hk1 | hk2
          · exact h (kk, vs) (List.mem_cons_self _ _) k hk1
          · rw [List.mem_singleton.mp hk2]
            subst heq
            exact hv
      · exact h e (List.mem_cons_of_mem _ ht) k hk
    · rcases List.mem_cons.mp he with hee | ht
      · subst hee
        exact h (kk, vs) (List.mem_cons_self _ _) k hk
      · exact ih (fun e' he' => h e' (List.mem_cons_of_mem _ he')) e ht k hk

theorem processEntry_groups_eq (env : AggEnv) (mid : String) (st : GroupState)
    (bucket key : String) (t : PyDateTime) :
    (processEntry env mid st bucket key t).groups = st.groups ∨
    ∃ freq, getFrequencyHours env (env.criticalityOf bucket) = some freq ∧
      withinAllowedPrefixes env (env.criticalityOf bucket) key = true ∧
      (processEntry env mid st bucket key t).groups =
        alAdd (env.criticalityOf bucket, bucket,
          windowLabelOf (computeWindowStart t freq)) key st.groups := by
  cases hf : getFrequencyHours env (env.criticalityOf bucket) with
  | none => exact Or.inl (by simp [processEntry, hf])
  | some freq =>
    by_cases hw : withinAllowedPrefixes env (env.criticalityOf bucket) key = true
    · exact Or.inr ⟨freq, rfl, hw, by simp [processEntry, hf, hw]⟩
    · exact Or.inl (by simp [processEntry, hf, hw])

theorem processEntry_groups_ne (env : AggEnv) (mid : String) (st : GroupState)
    (bucket key : String) (t : PyDateTime)
    (h : ∀ e ∈ st.groups, e.2 ≠ []) :
    ∀ e ∈ (processEntry env mid st bucket key t).groups, e.2 ≠ [] := by
  rcases processEntry_groups_eq env mid st bucket key t with heq | ⟨freq, _, _, heq⟩
  · rw [heq]; exact h
  · rw [heq]; exact alAdd_ne _ _ _ h

theorem processEntry_groups_inv (env : AggEnv) (mid : String) (st : GroupState)
    (bucket key : String) (t : PyDateTime)
    (h : ∀ e ∈ st.groups, ∀ k ∈ e.2, withinAllowedPrefixes env e.1.1 k = true) :
    ∀ e ∈ (processEntry env mid st bucket key t).groups, ∀ k ∈ e.2,
      withinAllowedPrefixes env e.1.1 k = true := by
  rcases processEntry_groups_eq env mid st bucket key t with heq | ⟨freq, _, hw, heq⟩
  · rw [heq]; exact h
  · rw [heq]; exact alAdd_inv env _ _ _ h hw

theorem processEntries_groups_ne (env : AggEnv) (mid : String) :
    ∀ (es : List S3Entry) (st : GroupState),
      (∀ e ∈ st.groups, e.2 ≠ []) →
      ∀ e ∈ (processEntries env mid st es).1.groups, e.2 ≠ []
  | [], st, h => h
  | .bad :: _, st, h => h
  | .skip :: rest, st, h => processEntries_groups_ne env mid rest st h
  | .obj b k t :: rest, st, h =>
    processEntries_groups_ne env mid rest _ (processEntry_groups_ne env mid st b k t h)

theorem processEntries_groups_inv (env : AggEnv) (mid : String) :
    ∀ (es : List S3Entry) (st : GroupState),
      (∀ e ∈ st.groups, ∀ k ∈ e.2, withinAllowedPrefixes env e.1.1 k = true) →
      ∀ e ∈ (processEntries env mid st es).1.groups, ∀ k ∈ e.2,
        withinAllowedPrefixes env e.1.1 k = true
  | [], st, h => h
  | .bad :: _, st, h => h
  | .skip :: rest, st, h => processEntries_groups_inv env mid rest st h
  | .obj b k t :: rest, st, h =>
    processEntries_groups_inv env mid rest _ (processEntry_groups_inv env mid st b k t h)

theorem parseRecords_groups_ne (env : AggEnv) :
    ∀ (rs : List SqsRecord) (st : GroupState) (failed : List String),
      (∀ e ∈ st.groups, e.2 ≠ []) →
      ∀ e ∈ (parseRecords env rs st failed).1.groups, e.2 ≠ []
  | [], st, failed, h => h
  | r :: rest, st, failed, h => by
    unfold parseRecords
    cases hb : r.body with
    | invalid => exact parseRecords_groups_ne env rest st _ h
    | event recs =>
      exact parseRecords_groups_ne env rest _ _
        (processEntries_groups_ne env r.msgId recs st h)

theorem parseRecords_groups_inv (env : AggEnv) :
    ∀ (rs : List SqsRecord) (st : GroupState) (failed : List String),
      (∀ e ∈ st.groups, ∀ k ∈ e.2, withinAllowedPrefixes env e.1.1 k = true) →
      ∀ e ∈ (parseRecords env rs st failed).1.groups, ∀ k ∈ e.2,
        withinAllowedPrefixes env e.1.1 k = true
  | [], st, failed, h => h
  | r :: rest, st, failed, h => by
    unfold parseRecords
    cases hb : r.body with
    | invalid => exact parseRecords_groups_inv env rest st _ h
    | event recs =>
      exact parseRecords_groups_inv env rest _ _
        (processEntries_groups_inv env r.msgId recs st h)

theorem processEntries_clean (env : AggEnv) (mid : String) :
    ∀ (es : List S3Entry) (st : GroupState),
      (∀ e ∈ es, e ≠ S3Entry.bad) → (processEntries env mid st es).2 = false
  | [], _, _ => rfl
  | .bad :: _, _, h => absurd rfl (h .bad (List.mem_cons_self _ _))
  | .skip :: rest, st, h =>
    processEntries_clean env mid rest st fun e he => h e (List.mem_cons_of_mem _ he)
  | .obj b k t :: rest, st, h =>
    processEntries_clean env mid rest _ fun e he => h e (List.mem_cons_of_mem _ he)

theorem parseRecords_clean (env : AggEnv) :
    ∀ (rs : List SqsRecord) (st : GroupState) (failed : List String),
      (∀ r ∈ rs, recordClean r = true) →
      (parseRecords env rs st failed).2 = failed
  | [], _, _, _ => rfl
  | r :: rest, st, failed, h => by
    have hr := h r (List.mem_cons_self _ _)
    unfold recordClean at hr
    unfold parseRecords
    cases hb : r.body with
    | invalid => rw [hb] at hr; simp at hr
    | event recs =>
      rw [hb] at hr
      simp only [List.all_eq_true, decide_eq_true_eq] at hr
      have hraise := processEntries_clean env r.msgId recs st hr
      show (parseRecords env rest (processEntries env r.msgId st recs).1
          (if (processEntries env r.msgId st recs).2 = true ∧ r.msgId ≠ "" then
            failed ++ [r.msgId] else failed)).2 = failed
      rw [hraise]
      simp only [Bool.false_eq_true, false_and, if_false]
      exact parseRecords_clean env rest _ failed
        fun r' hr' => h r' (List.mem_cons_of_mem _ hr')

/-! ### Properties of the group commit loop -/

theorem stepGroup_skip (env : AggEnv) (oracle : GroupKey → GroupOutcome)
    (mf : GroupKey → List String) (acc : AggAcc) (g : GroupKey × List String)
    (h : g.2 = [] ∨ (¬env.disableWindowCheckpoint ∧ g.1 ∈ acc.markers)) :
    stepGroup env oracle mf acc g = acc := by
  unfold stepGroup
  rcases h with h | h
  · rw [if_pos h]
  · by_cases he : g.2 = []
    · rw [if_pos he]
    · rw [if_neg he, if_pos h]

theorem stepGroup_markers_char (env : AggEnv) (oracle : GroupKey → GroupOutcome)
    (mf : GroupKey → List String) (acc : AggAcc) (g : GroupKey × List String) :
    ∀ x ∈ (stepGroup env oracle mf acc g).markers, x ∈ acc.markers ∨ x = g.1 := by
  intro x hx
  unfold stepGroup at hx
  split at hx
  · exact Or.inl hx
  split at hx
  · exact Or.inl hx
  split at hx
  · exact Or.inl hx
  split at hx
  · exact Or.inl hx
  split at hx
  · rcases List.mem_append.mp hx with h | h
    · exact Or.inl h
    · exact Or.inr (List.mem_singleton.mp h)
  · exact Or.inl hx

theorem stepGroup_markers_mono (env : AggEnv) (oracle : GroupKey → GroupOutcome)
    (mf : GroupKey → List String) (acc : AggAcc) (g : GroupKey × List String) :
    ∀ x ∈ acc.markers, x ∈ (stepGroup env oracle mf acc g).markers := by
  intro x hx
  unfold stepGroup
  split
  · exact hx
  split
  · exact hx
  split
  · exact hx
  split
  · exact hx
  split
  · exact List.mem_append_left _ hx
  · exact hx

theorem stepGroup_jobs_mono (env : AggEnv) (oracle : GroupKey → GroupOutcome)
    (mf : GroupKey → List String) (acc : AggAcc) (g : GroupKey × List String) :
    ∀ x ∈ acc.jobs, x ∈ (stepGroup env oracle mf acc g).jobs := by
  intro x hx
  unfold stepGroup
  split
  · exact hx
  split
  · exact hx
  split
  · exact hx
  split
  · exact hx
  split
  · exact List.mem_append_left _ hx
  · exact List.mem_append_left _ hx

theorem stepGroup_failed_eq (env : AggEnv) (oracle : GroupKey → GroupOutcome)
    (mf : GroupKey → List String) (acc : AggAcc) (g : GroupKey × List String)
    (hup : (oracle g.1).uploadOk = true) (hsub : (oracle g.1).submitOk = true) :
    (stepGroup env oracle mf acc g).failed = acc.failed := by
  unfold stepGroup
  split
  · rfl
  split
  · rfl
  rw [if_neg (by simp [hup]), if_neg (by simp [hsub])]
  split
  · rfl
  · rfl

theorem stepGroup_markers_eq (env : AggEnv) (oracle : GroupKey → GroupOutcome)
    (mf : GroupKey → List String) (acc : AggAcc) (g : GroupKey × List String)
    (hmk : (oracle g.1).markerOk = false) :
    (stepGroup env oracle mf acc g).markers = acc.markers := by
  unfold stepGroup
  split
  · rfl
  split
  · rfl
  split
  · rfl
  split
  · rfl
  rw [if_neg (by simp [hmk])]

theorem stepGroup_commits_job (env : AggEnv) (oracle : GroupKey → GroupOutcome)
    (mf : GroupKey → List String) (acc : AggAcc) (g : GroupKey × List String)
    (hk : g.2 ≠ []) (hm : g.1 ∉ acc.markers)
    (hup : (oracle g.1).uploadOk = true) (hsub : (oracle g.1).submitOk = true) :
    g.1 ∈ (stepGroup env oracle mf acc g).jobs := by
  unfold stepGroup
  rw [if_neg hk, if_neg (by intro hc; exact hm hc.2),
    if_neg (by simp [hup]), if_neg (by simp [hsub])]
  split
  · exact List.mem_append_right _ (List.mem_singleton.mpr rfl)
  · exact List.mem_append_right _ (List.mem_singleton.mpr rfl)

theorem stepGroup_marks (env : AggEnv) (oracle : GroupKey → GroupOutcome)
    (mf : GroupKey → List String) (acc : AggAcc) (g : GroupKey × List String)
    (hdis : env.disableWindowCheckpoint = false) (hk : g.2 ≠ [])
    (hok : oracle g.1 = ⟨true, true, true⟩) :
    g.1 ∈ (stepGroup env oracle mf acc g).markers := by
  by_cases hm : g.1 ∈ acc.markers
  · exact stepGroup_markers_mono env oracle mf acc g g.1 hm
  · unfold stepGroup
    rw [if_neg hk, if_neg (by intro hc; exact hm hc.2),
      if_neg (by simp [hok]), if_neg (by simp [hok]),
      if_pos (by simp [hok, hdis])]
    exact List.mem_append_right _ (List.mem_singleton.mpr rfl)

theorem foldl_stepGroup_markers_mono (env : AggEnv) (oracle : GroupKey → GroupOutcome)
    (mf : GroupKey → List String) :
    ∀ (gs : List (GroupKey × List String)) (acc : AggAcc),
      ∀ x ∈ acc.markers, x ∈ (gs.foldl (stepGroup env oracle mf) acc).markers
  | [], acc => fun x hx => hx
  | g :: rest, acc => fun x hx =>
    foldl_stepGroup_markers_mono env oracle mf rest _ x
      (stepGroup_markers_mono env oracle mf acc g x hx)

theorem foldl_stepGroup_jobs_mono (env : AggEnv) (oracle : GroupKey → GroupOutcome)
    (mf : GroupKey → List String) :
    ∀ (gs : List (GroupKey × List String)) (acc : AggAcc),
      ∀ x ∈ acc.jobs, x ∈ (gs.foldl (stepGroup env oracle mf) acc).jobs
  | [], acc => fun x hx => hx
  | g :: rest, acc => fun x hx =>
    foldl_stepGroup_jobs_mono env oracle mf rest _ x
      (stepGroup_jobs_mono env oracle mf acc g x hx)

theorem foldl_stepGroup_failed_eq (env : AggEnv) (oracle : GroupKey → GroupOutcome)
    (mf : GroupKey → List String)
    (hup : ∀ gk, (oracle gk).uploadOk = true) (hsub : ∀ gk, (oracle gk).submitOk = true) :
    ∀ (gs : List (GroupKey × List String)) (acc : AggAcc),
      (gs.foldl (stepGroup env oracle mf) acc).failed = acc.failed
  | [], acc => rfl
  | g :: rest, acc => by
    rw [List.foldl_cons, foldl_stepGroup_failed_eq env oracle mf hup hsub rest _,
      stepGroup_failed_eq env oracle mf acc g (hup g.1) (hsub g.1)]

theorem foldl_stepGroup_markers_const (env : AggEnv) (oracle : GroupKey → GroupOutcome)
    (mf : GroupKey → List String) (hmk : ∀ gk, (oracle gk).markerOk = false) :
    ∀ (gs : List (GroupKey × List String)) (acc : AggAcc),
      (gs.foldl (stepGroup env oracle mf) acc).markers = acc.markers
  | [], acc => rfl
  | g :: rest, acc => by
    rw [List.foldl_cons, foldl_stepGroup_markers_const env oracle mf hmk rest _,
      stepGroup_markers_eq env oracle mf acc g (hmk g.1)]

theorem foldl_stepGroup_covers (env : AggEnv) (oracle : GroupKey → GroupOutcome)
    (mf : GroupKey → List String) (hdis : env.disableWindowCheckpoint = false)
    (hok : ∀ gk, oracle gk = ⟨true, true, true⟩) :
    ∀ (gs : List (GroupKey × List String)) (acc : AggAcc) (g : GroupKey × List String),
      g ∈ gs → g.2 ≠ [] → g.1 ∈ (gs.foldl (stepGroup env oracle mf) acc).markers
  | [], _, _, hmem, _ => absurd hmem (List.not_mem_nil _)
  | hd :: rest, acc, g, hmem, hk => by
    rcases List.mem_cons.mp hmem with heq | ht
    · subst heq
      exact foldl_stepGroup_markers_mono env oracle mf rest _ g.1
        (stepGroup_marks env oracle mf acc g hdis hk (hok g.1))
    · exact foldl_stepGroup_covers env oracle mf hdis hok rest _ g ht hk

theorem foldl_stepGroup_all_skip (env : AggEnv) (oracle : GroupKey → GroupOutcome)
    (mf : GroupKey → List String) (hdis : env.disableWindowCheckpoint = false) :
    ∀ (gs : List (GroupKey × List String)) (acc : AggAcc),
      (∀ g ∈ gs, g.2 ≠ [] → g.1 ∈ acc.markers) →
      gs.foldl (stepGroup env oracle mf) acc = acc
  | [], acc, _ => rfl
  | g :: rest, acc, h => by
    have hstep : stepGroup env oracle mf acc g = acc := by
      apply stepGroup_skip
      by_cases hk : g.2 = []
      · exact Or.inl hk
      · exact Or.inr ⟨by rw [hdis]; exact Bool.false_ne_true, h g (List.mem_cons_self _ _) hk⟩
    rw [List.foldl_cons, hstep]
    exact foldl_stepGroup_all_skip env oracle mf hdis rest acc
      fun g' hg' hk' => h g' (List.mem_cons_of_mem _ hg') hk'

theorem foldl_stepGroup_commits (env : AggEnv) (oracle : GroupKey → GroupOutcome)
    (mf : GroupKey → List String) (gk : GroupKey)
    (hup : (oracle gk).uploadOk = true) (hsub : (oracle gk).submitOk = true) :
    ∀ (gs : List (GroupKey × List String)) (acc : AggAcc) (keys : List String),
      (gk, keys) ∈ gs → keys ≠ [] → gk ∉ acc.markers →
      gk ∈ (gs.foldl (stepGroup env oracle mf) acc).jobs
  | [], _, _, hmem, _, _ => absurd hmem (List.not_mem_nil _)
  | hd :: rest, acc, keys, hmem, hk, hnm => by
    rcases List.mem_cons.mp hmem with heq | ht
    · subst heq
      rw [List.foldl_cons]
      exact foldl_stepGroup_jobs_mono env oracle mf rest _ gk
        (stepGroup_commits_job env oracle mf acc (gk, keys) hk hnm hup hsub)
    · by_cases hkey : hd.1 = gk
      · by_cases hempty : hd.2 = []
        · rw [List.foldl_cons, stepGroup_skip env oracle mf acc hd (Or.inl hempty)]
          exact foldl_stepGroup_commits env oracle mf gk hup hsub rest acc keys ht hk hnm
        · have hj : gk ∈ (stepGroup env oracle mf acc hd).jobs := by
            have := stepGroup_commits_job env oracle mf acc hd hempty
              (by rw [hkey]; exact hnm) (by rw [hkey]; exact hup) (by rw [hkey]; exact hsub)
            rw [hkey] at this
            exact this
          rw [List.foldl_cons]
          exact foldl_stepGroup_jobs_mono env oracle mf rest _ gk hj
      · have hnm2 : gk ∉ (stepGroup env oracle mf acc hd).markers := by
          intro hin
          rcases stepGroup_markers_char env oracle mf acc hd gk hin with h | h
          · exact hnm h
          · exact hkey h.symm
        rw [List.foldl_cons]
        exact foldl_stepGroup_commits env oracle mf gk hup hsub rest _ keys ht hk hnm2

theorem lambdaHandlerAgg_jobs (env : AggEnv) (oracle : GroupKey → GroupOutcome)
    (markers0 : List GroupKey) (records : List SqsRecord) :
    (lambdaHandlerAgg env oracle markers0 records).jobs =
      ((parseRecords env records ⟨[], [], []⟩ []).1.groups.foldl
        (stepGroup env oracle fun gk =>
          alGet gk (parseRecords env records ⟨[], [], []⟩ []).1.msgIds)
        ⟨[], [], markers0, (parseRecords env records ⟨[], [], []⟩ []).2⟩).jobs := rfl

theorem lambdaHandlerAgg_manifests (env : AggEnv) (oracle : GroupKey → GroupOutcome)
    (markers0 : List GroupKey) (records : List SqsRecord) :
    (lambdaHandlerAgg env oracle markers0 records).manifests =
      ((parseRecords env records ⟨[], [], []⟩ []).1.groups.foldl
        (stepGroup env oracle fun gk =>
          alGet gk (parseRecords env records ⟨[], [], []⟩ []).1.msgIds)
        ⟨[], [], markers0, (parseRecords env records ⟨[], [], []⟩ []).2⟩).manifests := rfl

theorem lambdaHandlerAgg_markers (env : AggEnv) (oracle : GroupKey → GroupOutcome)
    (markers0 : List GroupKey) (records : List SqsRecord) :
    (lambdaHandlerAgg env oracle markers0 records).markers =
      ((parseRecords env records ⟨[], [], []⟩ []).1.groups.foldl
        (stepGroup env oracle fun gk =>
          alGet gk (parseRecords env records ⟨[], [], []⟩ []).1.msgIds)
        ⟨[], [], markers0, (parseRecords env records ⟨[], [], []⟩ []).2⟩).markers := rfl

theorem lambdaHandlerAgg_failures (env : AggEnv) (oracle : GroupKey → GroupOutcome)
    (markers0 : List GroupKey) (records : List SqsRecord) :
    (lambdaHandlerAgg env oracle markers0 records).failures =
      listDedup
        ((((parseRecords env records ⟨[], [], []⟩ []).1.groups.foldl
          (stepGroup env oracle fun gk =>
            alGet gk (parseRecords env records ⟨[], [], []⟩ []).1.msgIds)
          ⟨[], [], markers0, (parseRecords env records ⟨[], [], []⟩ []).2⟩).failed).filter
          fun mid => mid ≠ "") := rfl

/-! ### Claims C2, C8, C10 and the Aggregator side of C5 -/

/-- C2: with window checkpointing enabled, after a first Aggregator run in
which every group committed (manifest uploaded, job accepted, marker
written), a second run over the same event batch against the resulting
marker store creates zero batch-copy jobs and uploads zero manifests,
whatever the store outcomes of the second run would have been: every
group is skipped at the marker check. -/
theorem agg_replay_no_new_jobs (env : AggEnv) (oracle2 : GroupKey → GroupOutcome)
    (markers0 : List GroupKey) (records : List SqsRecord)
    (hdis : env.disableWindowCheckpoint = false) :
    (lambdaHandlerAgg env oracle2
        (lambdaHandlerAgg env (fun _ => ⟨true, true, true⟩) markers0 records).markers
        records).jobs = [] ∧
    (lambdaHandlerAgg env oracle2
        (lambdaHandlerAgg env (fun _ => ⟨true, true, true⟩) markers0 records).markers
        records).manifests = [] := by
  have hcov : ∀ g ∈ (parseRecords env records ⟨[], [], []⟩ []).1.groups, g.2 ≠ [] →
      g.1 ∈ (lambdaHandlerAgg env (fun _ => ⟨true, true, true⟩) markers0 records).markers := by
    intro g hg hk
    rw [lambdaHandlerAgg_markers]
    exact foldl_stepGroup_covers env _ _ hdis (fun _ => rfl) _ _ g hg hk
  have hskip := foldl_stepGroup_all_skip env oracle2
    (fun gk => alGet gk (parseRecords env records ⟨[], [], []⟩ []).1.msgIds) hdis
    (parseRecords env records ⟨[], [], []⟩ []).1.groups
    ⟨[], [],
      (lambdaHandlerAgg env (fun _ => ⟨true, true, true⟩) markers0 records).markers,
      (parseRecords env records ⟨[], [], []⟩ []).2⟩
    hcov
  constructor
  · rw [lambdaHandlerAgg_jobs, hskip]
  · rw [lambdaHandlerAgg_manifests, hskip]

/-- Witness for C2 at a concrete single-message batch. -/
theorem agg_replay_no_new_jobs_witness :
    (⟨[], [], fun _ => [], fun _ => some 6, fun _ => "Critico", false⟩ :
      AggEnv).disableWindowCheckpoint = false ∧
    ((lambdaHandlerAgg ⟨[], [], fun _ => [], fun _ => some 6, fun _ => "Critico", false⟩
        (fun _ => ⟨true, true, true⟩)
        (lambdaHandlerAgg ⟨[], [], fun _ => [], fun _ => some 6, fun _ => "Critico", false⟩
          (fun _ => ⟨true, true, true⟩) []
          [⟨"m1", .event [.obj "b-1" "data/a.txt" ⟨2025, 10, 20, 13, 15, 0, 0⟩]⟩]).markers
        [⟨"m1", .event [.obj "b-1" "data/a.txt" ⟨2025, 10, 20, 13, 15, 0, 0⟩]⟩]).jobs = [] ∧
      (lambdaHandlerAgg ⟨[], [], fun _ => [], fun _ => some 6, fun _ => "Critico", false⟩
        (fun _ => ⟨true, true, true⟩)
        (lambdaHandlerAgg ⟨[], [], fun _ => [], fun _ => some 6, fun _ => "Critico", false⟩
          (fun _ => ⟨true, true, true⟩) []
          [⟨"m1", .event [.obj "b-1" "data/a.txt" ⟨2025, 10, 20, 13, 15, 0, 0⟩]⟩]).markers
        [⟨"m1", .event [.obj "b-1" "data/a.txt" ⟨2025, 10, 20, 13, 15, 0, 0⟩]⟩]).manifests
        = []) :=
  ⟨rfl,
    agg_replay_no_new_jobs ⟨[], [], fun _ => [], fun _ => some 6, fun _ => "Critico", false⟩
      (fun _ => ⟨true, true, true⟩) []
      [⟨"m1", .event [.obj "b-1" "data/a.txt" ⟨2025, 10, 20, 13, 15, 0, 0⟩]⟩] rfl⟩

/-- C8: for a queue batch of one undecodable message (carrying an id)
followed by well-formed messages, with every group commit succeeding, the
partial-failure response names exactly the malformed message. -/
theorem agg_partial_failure_exact (env : AggEnv) (markers0 : List GroupKey)
    (mid : String) (rest : List SqsRecord) (hid : mid ≠ "")
    (hclean : ∀ r ∈ rest, recordClean r = true) :
    (lambdaHandlerAgg env (fun _ => ⟨true, true, true⟩) markers0
        (⟨mid, MsgBody.invalid⟩ :: rest)).failures = [mid] := by
  have hparse : parseRecords env (⟨mid, MsgBody.invalid⟩ :: rest) ⟨[], [], []⟩ [] =
      parseRecords env rest ⟨[], [], []⟩ [mid] := by
    show parseRecords env rest ⟨[], [], []⟩ (if mid ≠ "" then [] ++ [mid] else []) =
      parseRecords env rest ⟨[], [], []⟩ [mid]
    rw [if_pos hid]
    rfl
  have hfail0 : (parseRecords env rest ⟨[], [], []⟩ [mid]).2 = [mid] :=
    parseRecords_clean env rest ⟨[], [], []⟩ [mid] hclean
  rw [lambdaHandlerAgg_failures, hparse,
    foldl_stepGroup_failed_eq env _ _ (fun _ => rfl) (fun _ => rfl)]
  show listDedup (((parseRecords env rest ⟨[], [], []⟩ [mid]).2).filter
    fun x => x ≠ "") = [mid]
  rw [hfail0]
  simp [listDedup, listDedupAux, hid]

/-- Witness for C8: one malformed message and one valid message whose group
commits. -/
theorem agg_partial_failure_exact_witness :
    ("bad-1" : String) ≠ "" ∧
    (∀ r ∈ [(⟨"m1", .event [.obj "b-1" "data/a.txt" ⟨2025, 10, 20, 13, 15, 0, 0⟩]⟩ :
        SqsRecord)], recordClean r = true) ∧
    (lambdaHandlerAgg ⟨[], [], fun _ => [], fun _ => some 6, fun _ => "Critico", false⟩
        (fun _ => ⟨true, true, true⟩) []
        (⟨"bad-1", MsgBody.invalid⟩ ::
          [⟨"m1", .event [.obj "b-1" "data/a.txt" ⟨2025, 10, 20, 13, 15, 0, 0⟩]⟩])).failures
      = ["bad-1"] :=
  ⟨by decide, by decide,
    agg_partial_failure_exact
      ⟨[], [], fun _ => [], fun _ => some 6, fun _ => "Critico", false⟩ [] "bad-1"
      [⟨"m1", .event [.obj "b-1" "data/a.txt" ⟨2025, 10, 20, 13, 15, 0, 0⟩]⟩]
      (by decide) (by decide)⟩

/-- C10: when every manifest upload and job submission succeeds but the
window-marker writes fail, a group of the batch is still committed (its
job is created), no message of the batch is reported as failed, the
marker store is left unchanged — and a redelivery of the same batch
against that store submits a second job for the same window. -/
theorem agg_marker_failure_swallowed (env : AggEnv) (markers0 : List GroupKey)
    (records : List SqsRecord) (gk : GroupKey) (keys : List String)
    (hdis : env.disableWindowCheckpoint = false)
    (hclean : ∀ r ∈ records, recordClean r = true)
    (hg : (gk, keys) ∈ (parseRecords env records ⟨[], [], []⟩ []).1.groups)
    (hk : keys ≠ []) (hm : gk ∉ markers0) :
    gk ∈ (lambdaHandlerAgg env (fun _ => ⟨true, true, false⟩) markers0 records).jobs ∧
    (lambdaHandlerAgg env (fun _ => ⟨true, true, false⟩) markers0 records).failures = [] ∧
    (lambdaHandlerAgg env (fun _ => ⟨true, true, false⟩) markers0 records).markers = markers0 ∧
    gk ∈ (lambdaHandlerAgg env (fun _ => ⟨true, true, true⟩)
        (lambdaHandlerAgg env (fun _ => ⟨true, true, false⟩) markers0 records).markers
        records).jobs := by
  have hmarkers :
      (lambdaHandlerAgg env (fun _ => ⟨true, true, false⟩) markers0 records).markers =
        markers0 := by
    rw [lambdaHandlerAgg_markers,
      foldl_stepGroup_markers_const env _ _ (fun _ => rfl)]
  refine ⟨?_, ?_, hmarkers, ?_⟩
  · rw [lambdaHandlerAgg_jobs]
    exact foldl_stepGroup_commits env _ _ gk rfl rfl _ _ keys hg hk hm
  · rw [lambdaHandlerAgg_failures,
      foldl_stepGroup_failed_eq env _ _ (fun _ => rfl) (fun _ => rfl)]
    show listDedup (((parseRecords env records ⟨[], [], []⟩ []).2).filter
      fun x => x ≠ "") = []
    rw [parseRecords_clean env records ⟨[], [], []⟩ [] hclean]
    rfl
  · rw [hmarkers, lambdaHandlerAgg_jobs]
    exact foldl_stepGroup_commits env _ _ gk rfl rfl _ _ keys hg hk hm

/-- Witness for C10 at a concrete one-message batch. -/
theorem agg_marker_failure_swallowed_witness :
    (⟨[], [], fun _ => [], fun _ => some 6, fun _ => "Critico", false⟩ :
      AggEnv).disableWindowCheckpoint = false ∧
    (("Critico", "b-1", "20251020T1200Z"), ["data/a.txt"]) ∈
      (parseRecords ⟨[], [], fun _ => [], fun _ => some 6, fun _ => "Critico", false⟩
        [⟨"m1", .event [.obj "b-1" "data/a.txt" ⟨2025, 10, 20, 13, 15, 0, 0⟩]⟩]
        ⟨[], [], []⟩ []).1.groups ∧
    ("Critico", "b-1", "20251020T1200Z") ∈
      (lambdaHandlerAgg ⟨[], [], fun _ => [], fun _ => some 6, fun _ => "Critico", false⟩
        (fun _ => ⟨true, true, false⟩) []
        [⟨"m1", .event [.obj "b-1" "data/a.txt" ⟨2025, 10, 20, 13, 15, 0, 0⟩]⟩]).jobs :=
  ⟨rfl, by decide,
    (agg_marker_failure_swallowed
      ⟨[], [], fun _ => [], fun _ => some 6, fun _ => "Critico", false⟩ []
      [⟨"m1", .event [.obj "b-1" "data/a.txt" ⟨2025, 10, 20, 13, 15, 0, 0⟩]⟩]
      ("Critico", "b-1", "20251020T1200Z") ["data/a.txt"] rfl (by decide) (by decide)
      (by decide) (by decide)).1⟩

theorem mem_insertStr (x y : String) (l : List String) :
    x ∈ insertStr y l ↔ x = y ∨ x ∈ l := by
  induction l with
  | nil => simp [insertStr]
  | cons z rest ih =>
    unfold insertStr
    split
    · simp
    · simp only [List.mem_cons, ih]
      constructor
      · rintro (h | h | h)
        · exact Or.inr (Or.inl h)
        · exact Or.inl h
        · exact Or.inr (Or.inr h)
      · rintro (h | h | h)
        · exact Or.inr (Or.inl h)
        · exact Or.inl h
        · exact Or.inr (Or.inr h)

theorem mem_sortStrings (x : String) (l : List String) :
    x ∈ sortStrings l ↔ x ∈ l := by
  induction l with
  | nil => simp [sortStrings]
  | cons y rest ih =>
    unfold sortStrings
    rw [mem_insertStr, ih]
    simp

theorem alGet_mem (gk : GroupKey) (k : String) :
    ∀ al : List (GroupKey × List String), k ∈ alGet gk al →
      ∃ e ∈ al, e.1 = gk ∧ k ∈ e.2
  | [], h => absurd h (List.not_mem_nil _)
  | (kk, vs) :: rest, h => by
    unfold alGet at h
    split at h
    · next heq => exact ⟨(kk, vs), List.mem_cons_self _ _, heq, h⟩
    · obtain ⟨e, he, h1, h2⟩ := alGet_mem gk k rest h
      exact ⟨e, List.mem_cons_of_mem _ he, h1, h2⟩

/-- C5 amended, Aggregator side: no manifest row the Aggregator produces
carries a key equal to a nonempty configured exclude value p, starting
with p and a slash, or containing p as a slash-delimited segment: every
grouped key passed the object filter. -/
theorem agg_manifest_rows_respect_excludes (env : AggEnv) (records : List SqsRecord)
    (gk : GroupKey) (p : String) (row : String × String)
    (hp : p ∈ env.exKeyPref) (hne : p ≠ "")
    (hrow : row ∈ aggManifestRows env records gk) :
    ¬(row.2 = p ∨ pyStartswith row.2 (p ++ "/") = true ∨
      pyContains row.2 ("/" ++ p ++ "/") = true) := by
  intro hform
  unfold aggManifestRows at hrow
  rcases List.mem_map.mp hrow with ⟨k, hkmem, hroweq⟩
  have hk2 : row.2 = k := by rw [← hroweq]
  rw [hk2] at hform
  have hkl := (mem_sortStrings k _).mp hkmem
  obtain ⟨e, he, hek, hkin⟩ := alGet_mem gk k _ hkl
  have hinv := parseRecords_groups_inv env records ⟨[], [], []⟩ []
    (fun e' he' => absurd he' (List.not_mem_nil _)) e he k hkin
  have hfalse := withinAllowedPrefixes_excludes env e.1.1 k p hp hne hform
  rw [hfalse] at hinv
  exact absurd hinv (by simp)

/-- Witness for C5 amended: a concrete batch whose one grouped key passes
the filter while "tmp" is configured as an exclude value. -/
theorem agg_manifest_rows_respect_excludes_witness :
    ("tmp" : String) ∈
      (⟨["tmp"], [], fun _ => [], fun _ => some 6, fun _ => "Critico", false⟩ :
        AggEnv).exKeyPref ∧
    ("tmp" : String) ≠ "" ∧
    ("b-1", "data/a.txt") ∈
      aggManifestRows ⟨["tmp"], [], fun _ => [], fun _ => some 6, fun _ => "Critico", false⟩
        [⟨"m1", .event [.obj "b-1" "data/a.txt" ⟨2025, 10, 20, 13, 15, 0, 0⟩]⟩]
        ("Critico", "b-1", "20251020T1200Z") ∧
    ¬((("b-1", "data/a.txt") : String × String).2 = "tmp" ∨
      pyStartswith (("b-1", "data/a.txt") : String × String).2 ("tmp" ++ "/") = true ∨
      pyContains (("b-1", "data/a.txt") : String × String).2 ("/" ++ "tmp" ++ "/") = true) :=
  ⟨by decide, by decide, by decide,
    agg_manifest_rows_respect_excludes
      ⟨["tmp"], [], fun _ => [], fun _ => some 6, fun _ => "Critico", false⟩
      [⟨"m1", .event [.obj "b-1" "data/a.txt" ⟨2025, 10, 20, 13, 15, 0, 0⟩]⟩]
      ("Critico", "b-1", "20251020T1200Z") "tmp" ("b-1", "data/a.txt")
      (by decide) (by decide) (by decide)⟩

end Backup
